import Mathlib

/-!
Shallow embedding of `fetchStudentAssignments` from
`src/components/teacher/AssignmentUploader.tsx` (study-engage-platform).

The routine aggregates a student's enrolled courses, course titles,
assignments per course and the student's submissions into a list of
assignment views.  External store calls that may throw are modelled by a
`Faults` record of injection flags; JavaScript truthiness on optional
string fields is modelled explicitly.
-/

namespace StudyEngage

/-- An enrollment record `{student_id, course_id}` in the Enrollment Store. -/
structure Enrollment where
  student_id : String
  course_id : String
deriving DecidableEq, Repr

/-- A course record; only `title` is read by the aggregator.  The field may
be absent on the stored record, hence `Option`. -/
structure Course where
  title : Option String
deriving DecidableEq, Repr

/-- An assignment record as stored in the Assignment Store, keyed externally
by a database key.  `id`, `description`, `assignmentType` and `textContent`
may be absent on the raw record. -/
structure AssignmentRec where
  id : Option String
  course_id : String
  title : String
  description : Option String
  assignmentType : Option String
  textContent : Option String
deriving DecidableEq, Repr

/-- A submission record as stored in the Submission Store, keyed externally
by a database key.  The record may carry its own `id` field. -/
structure SubmissionRec where
  id : Option String
  assignment_id : String
  user_id : String
deriving DecidableEq, Repr

/-- The state of the hosted database: each collection is a list of records
(keyed collections are lists of key-record pairs) in store iteration
order. -/
structure DB where
  enrollments : List Enrollment
  courses : List (String × Course)
  assignments : List (String × AssignmentRec)
  submissions : List (String × SubmissionRec)

/-- Fault injection for the external store calls: which calls throw.
`courseFail cid` makes the course-title `get` for `cid` throw;
`assignFail cid` makes the assignments `get` of the per-course loop
iteration for `cid` throw. -/
structure Faults where
  enrollFail : Bool
  courseFail : String → Bool
  assignFail : String → Bool
  submitFail : Bool

/-- No store call throws. -/
def noFaults : Faults :=
  { enrollFail := false, courseFail := fun _ => false,
    assignFail := fun _ => false, submitFail := false }

/-- JavaScript truthiness of an optional string: absent and `""` are falsy. -/
def truthy : Option String → Bool
  | none => false
  | some s => s ≠ ""

/-- The course ids pushed from the enrollment query result for `userId`
(`enrollmentSnapshot.forEach(... courseIds.push(...course_id))`): one per
matching enrollment record, duplicates retained, in store order. -/
def collectCourseIds (db : DB) (userId : String) : List String :=
  (db.enrollments.filter (fun e => e.student_id == userId)).map (fun e => e.course_id)

/-- The course-title loop: for each course id, `get(courses/{cid})`; on
success record the title under the id (`coursesMap[courseId] = ...title`).
A throwing `get` is NOT caught here, so the whole loop fails. -/
def buildCoursesMap (db : DB) (f : Faults) :
    List String → List (String × Option String) → Except Unit (List (String × Option String))
  | [], m => .ok m
  | cid :: rest, m =>
    if f.courseFail cid then .error ()
    else
      match db.courses.find? (fun p => p.1 == cid) with
      | some p => buildCoursesMap db f rest (m ++ [(cid, p.2.title)])
      | none => buildCoursesMap db f rest m

/-- `coursesMap[courseId] || 'Unknown Course'`: the recorded title if it is
truthy, the literal fallback otherwise. -/
def courseNameOf (m : List (String × Option String)) (cid : String) : String :=
  match m.find? (fun p => p.1 == cid) with
  | some (_, some t) => if t = "" then "Unknown Course" else t
  | _ => "Unknown Course"

/-- An aggregated assignment row as pushed by the per-course loop:
`{ id: childSnapshot.key, ...assignment, course_name: ... }`.  The record
spread comes after `id`, so a record carrying its own `id` field overwrites
the database key; `course_name` comes last and always wins. -/
structure AssignmentRow where
  id : String
  course_id : String
  title : String
  description : Option String
  assignmentType : Option String
  textContent : Option String
  course_name : String
deriving DecidableEq, Repr

/-- Build one aggregated row from a database key, the raw record and the
resolved course name. -/
def decorate (k : String) (a : AssignmentRec) (cname : String) : AssignmentRow :=
  { id := a.id.getD k, course_id := a.course_id, title := a.title,
    description := a.description, assignmentType := a.assignmentType,
    textContent := a.textContent, course_name := cname }

/-- The per-course assignments loop: for each course id, fetch the whole
assignments collection and keep records whose `course_id` matches; a
throwing fetch is caught inside the loop (the iteration contributes
nothing) and the loop continues. -/
def collectAssignments (db : DB) (f : Faults) (m : List (String × Option String)) :
    List String → List AssignmentRow → List AssignmentRow
  | [], acc => acc
  | cid :: rest, acc =>
    if f.assignFail cid then collectAssignments db f m rest acc
    else
      collectAssignments db f m rest
        (acc ++ db.assignments.filterMap (fun p =>
          if p.2.course_id = cid then some (decorate p.1 p.2 (courseNameOf m cid)) else none))

/-- A submission as pushed from the submissions query result:
`{ id: childSnapshot.key, ...childSnapshot.val() }` — the record spread
comes after `id`, so a record carrying its own `id` overwrites the key. -/
structure SubmissionOut where
  id : String
  assignment_id : String
  user_id : String
deriving DecidableEq, Repr

/-- The submissions query for `user_id == userId`, in store order. -/
def buildSubmissions (db : DB) (userId : String) : List SubmissionOut :=
  (db.submissions.filter (fun p => p.2.user_id == userId)).map
    (fun p => { id := p.2.id.getD p.1, assignment_id := p.2.assignment_id,
                user_id := p.2.user_id })

/-- The view returned to the caller: the row plus derived fields.  In the
source the final object spread overwrites `assignmentType` and
`textContent`, so those hold the defaulted values. -/
structure AssignmentView where
  id : String
  course_id : String
  title : String
  description : Option String
  assignmentType : String
  textContent : Option String
  course_name : String
  submitted : Bool
  submission : Option SubmissionOut
deriving DecidableEq, Repr

/-- The join step for one row: find the first submission whose
`assignment_id` matches the row's `id`; `submitted` is the presence of a
match; `assignmentType` defaults to `"text"` when falsy; `textContent` is
`assignment.description || assignment.textContent`. -/
def mkView (subs : List SubmissionOut) (r : AssignmentRow) : AssignmentView :=
  let s := subs.find? (fun s => s.assignment_id == r.id)
  { id := r.id, course_id := r.course_id, title := r.title,
    description := r.description,
    assignmentType :=
      match r.assignmentType with
      | some t => if t = "" then "text" else t
      | none => "text",
    textContent := if truthy r.description then r.description else r.textContent,
    course_name := r.course_name,
    submitted := s.isSome,
    submission := s }

/-- The body of the `try` block: every store failure surfaces as
`.error ()`. -/
def fetchBody (db : DB) (f : Faults) (userId : String) :
    Except Unit (List AssignmentView) :=
  if f.enrollFail then .error ()
  else if (db.enrollments.filter (fun e => e.student_id == userId)).isEmpty then .ok []
  else if (collectCourseIds db userId).length = 0 then .ok []
  else
    match buildCoursesMap db f (collectCourseIds db userId) [] with
    | .error e => .error e
    | .ok m =>
      if f.submitFail then .error ()
      else
        .ok ((collectAssignments db f m (collectCourseIds db userId) []).map
          (mkView (buildSubmissions db userId)))

/-- The user-facing message routed to the notification collaborator on
total failure. -/
def fetchErrorMsg : String := "Failed to fetch assignments. Please try again later."

/-- What a call returns to its caller plus the notifications it emitted. -/
structure FetchResult where
  views : List AssignmentView
  toasts : List String
deriving DecidableEq, Repr

/-- `fetchStudentAssignments(userId)`: early return on a falsy id, then the
try block, whose failure is caught, toasted and flattened to `[]`. -/
def fetchStudentAssignments (db : DB) (f : Faults) (userId : String) : FetchResult :=
  if userId = "" then { views := [], toasts := [] }
  else
    match fetchBody db f userId with
    | .ok vs => { views := vs, toasts := [] }
    | .error _ => { views := [], toasts := [fetchErrorMsg] }

/-! ### Helper lemmas -/

theorem mem_assignments_of_course (db : DB) (m : List (String × Option String))
    (cid : String) (r : AssignmentRow) :
    r ∈ db.assignments.filterMap (fun p =>
        if p.2.course_id = cid then some (decorate p.1 p.2 (courseNameOf m cid)) else none) ↔
      ∃ p ∈ db.assignments, p.2.course_id = cid ∧ r = decorate p.1 p.2 (courseNameOf m cid) := by
  simp only [List.mem_filterMap]
  constructor
  · rintro ⟨p, hp, he⟩
    by_cases hc : p.2.course_id = cid
    · rw [if_pos hc] at he
      exact ⟨p, hp, hc, (Option.some.inj he).symm⟩
    · rw [if_neg hc] at he
      cases he
  · rintro ⟨p, hp, hc, rfl⟩
    exact ⟨p, hp, by rw [if_pos hc]⟩

theorem mem_collectAssignments (db : DB) (f : Faults) (m : List (String × Option String))
    (cids : List String) (acc : List AssignmentRow) (r : AssignmentRow) :
    r ∈ collectAssignments db f m cids acc ↔
      r ∈ acc ∨ ∃ cid ∈ cids, f.assignFail cid = false ∧
        ∃ p ∈ db.assignments, p.2.course_id = cid ∧
          r = decorate p.1 p.2 (courseNameOf m cid) := by
  induction cids generalizing acc with
  | nil => simp [collectAssignments]
  | cons cid rest ih =>
    by_cases h : f.assignFail cid = true
    · rw [collectAssignments, if_pos h, ih]
      constructor
      · rintro (hr | ⟨c, hc, hcf, hrest⟩)
        · exact Or.inl hr
        · exact Or.inr ⟨c, List.mem_cons_of_mem _ hc, hcf, hrest⟩
      · rintro (hr | ⟨c, hc, hcf, hrest⟩)
        · exact Or.inl hr
        · rcases List.mem_cons.mp hc with rfl | hc'
          · rw [h] at hcf; cases hcf
          · exact Or.inr ⟨c, hc', hcf, hrest⟩
    · rw [collectAssignments, if_neg h, ih]
      rw [Bool.not_eq_true] at h
      constructor
      · rintro (hr | ⟨c, hc, hcf, hrest⟩)
        · rcases List.mem_append.mp hr with hr' | hr'
          · exact Or.inl hr'
          · obtain ⟨p, hp, hcourse, rfl⟩ := (mem_assignments_of_course db m cid r).mp hr'
            exact Or.inr ⟨cid, List.mem_cons_self _ _, h, p, hp, hcourse, rfl⟩
        · exact Or.inr ⟨c, List.mem_cons_of_mem _ hc, hcf, hrest⟩
      · rintro (hr | ⟨c, hc, hcf, hrest⟩)
        · exact Or.inl (List.mem_append.mpr (Or.inl hr))
        · rcases List.mem_cons.mp hc with rfl | hc'
          · exact Or.inl (List.mem_append.mpr (Or.inr
              ((mem_assignments_of_course db m c r).mpr hrest)))
          · exact Or.inr ⟨c, hc', hcf, hrest⟩

theorem mem_buildSubmissions (db : DB) (u : String) (s : SubmissionOut) :
    s ∈ buildSubmissions db u ↔
      ∃ p ∈ db.submissions, p.2.user_id = u ∧
        s = { id := p.2.id.getD p.1, assignment_id := p.2.assignment_id,
              user_id := p.2.user_id } := by
  simp only [buildSubmissions, List.mem_map, List.mem_filter, beq_iff_eq]
  constructor
  · rintro ⟨p, ⟨hp, hu⟩, rfl⟩
    exact ⟨p, hp, hu, rfl⟩
  · rintro ⟨p, hp, hu, rfl⟩
    exact ⟨p, ⟨hp, hu⟩, rfl⟩

theorem exists_submission_iff (db : DB) (u x : String) :
    (∃ s ∈ buildSubmissions db u, s.assignment_id = x) ↔
      ∃ p ∈ db.submissions, p.2.assignment_id = x ∧ p.2.user_id = u := by
  constructor
  · rintro ⟨s, hs, hx⟩
    obtain ⟨p, hp, hu, rfl⟩ := (mem_buildSubmissions db u s).mp hs
    exact ⟨p, hp, hx, hu⟩
  · rintro ⟨p, hp, hx, hu⟩
    exact ⟨_, (mem_buildSubmissions db u _).mpr ⟨p, hp, hu, rfl⟩, hx⟩

theorem buildCoursesMap_error (db : DB) (f : Faults) (cids : List String)
    (m : List (String × Option String)) (h : ∃ cid ∈ cids, f.courseFail cid = true) :
    buildCoursesMap db f cids m = .error () := by
  induction cids generalizing m with
  | nil => obtain ⟨c, hc, _⟩ := h; cases hc
  | cons cid rest ih =>
    by_cases hcid : f.courseFail cid = true
    · rw [buildCoursesMap, if_pos hcid]
    · obtain ⟨c, hc, hcf⟩ := h
      rcases List.mem_cons.mp hc with rfl | hc'
      · exact absurd hcf hcid
      · rw [buildCoursesMap, if_neg hcid]
        split
        · exact ih _ ⟨c, hc', hcf⟩
        · exact ih _ ⟨c, hc', hcf⟩

theorem buildCoursesMap_ok (db : DB) (f : Faults) (cids : List String)
    (m : List (String × Option String)) (h : ∀ cid ∈ cids, f.courseFail cid = false) :
    ∃ m', buildCoursesMap db f cids m = .ok m' := by
  induction cids generalizing m with
  | nil => exact ⟨m, rfl⟩
  | cons cid rest ih =>
    have hcid : ¬(f.courseFail cid = true) := by
      rw [h cid (List.mem_cons_self _ _)]; exact Bool.false_ne_true
    rw [buildCoursesMap, if_neg hcid]
    split
    · exact ih _ (fun c hc => h c (List.mem_cons_of_mem _ hc))
    · exact ih _ (fun c hc => h c (List.mem_cons_of_mem _ hc))

theorem collectCourseIds_ne_nil (db : DB) (u : String)
    (hne : (db.enrollments.filter (fun e => e.student_id == u)).isEmpty = false) :
    ¬((collectCourseIds db u).length = 0) := by
  intro h0
  rw [collectCourseIds, List.length_map, List.length_eq_zero] at h0
  rw [h0] at hne
  cases hne

theorem mem_views (db : DB) (f : Faults) (u : String) (v : AssignmentView)
    (hv : v ∈ (fetchStudentAssignments db f u).views) :
    ∃ p ∈ db.assignments, ∃ cname,
      v = mkView (buildSubmissions db u) (decorate p.1 p.2 cname) := by
  by_cases hu : u = ""
  · simp [fetchStudentAssignments, hu] at hv
  · rcases hbody : fetchBody db f u with e | vs
    · simp [fetchStudentAssignments, hu, hbody] at hv
    · simp only [fetchStudentAssignments, hu, if_neg hu, hbody] at hv
      rw [fetchBody] at hbody
      split at hbody
      · cases hbody
      · split at hbody
        · cases hbody
          simp at hv
        · split at hbody
          · cases hbody
            simp at hv
          · split at hbody
            · cases hbody
            · split at hbody
              · cases hbody
              · cases hbody
                obtain ⟨r, hr, rfl⟩ := List.mem_map.mp hv
                rcases (mem_collectAssignments db f _ _ [] r).mp hr with
                  hr' | ⟨cid, _, _, p, hp, _, rfl⟩
                · cases hr'
                · exact ⟨p, hp, courseNameOf _ cid, rfl⟩

/-! ### Concrete store states used as witnesses and counterexamples -/

/-- An assignment record carrying both a truthy `description` and an
explicit `textContent` field. -/
def exRec : AssignmentRec :=
  { id := none, course_id := "c1", title := "T", description := some "d",
    assignmentType := none, textContent := some "t" }

/-- One student, one course, one assignment, no submissions. -/
def exDB : DB :=
  { enrollments := [{ student_id := "stu", course_id := "c1" }],
    courses := [("c1", { title := some "Course 1" })],
    assignments := [("k1", exRec)],
    submissions := [] }

/-- `exDB` with a submission by the student for the assignment. -/
def subDB : DB :=
  { exDB with
    submissions := [("s1", { id := none, assignment_id := "k1", user_id := "stu" })] }

/-- The view `fetchStudentAssignments subDB noFaults "stu"` returns. -/
def subView : AssignmentView :=
  { id := "k1", course_id := "c1", title := "T", description := some "d",
    assignmentType := "text", textContent := some "d", course_name := "Course 1",
    submitted := true,
    submission := some { id := "s1", assignment_id := "k1", user_id := "stu" } }

/-- The view `fetchStudentAssignments exDB noFaults "stu"` returns. -/
def exView : AssignmentView :=
  { subView with submitted := false, submission := none }

/-- Two enrollment records of the same student in the same course. -/
def dupDB : DB :=
  { exDB with
    enrollments := [{ student_id := "stu", course_id := "c1" },
                    { student_id := "stu", course_id := "c1" }] }

/-- An assignment of course `A`. -/
def recA : AssignmentRec :=
  { id := none, course_id := "A", title := "a1", description := none,
    assignmentType := none, textContent := none }

/-- An assignment of course `B`. -/
def recB : AssignmentRec :=
  { id := none, course_id := "B", title := "b1", description := none,
    assignmentType := none, textContent := none }

/-- One student enrolled in courses `A` and `B`, one assignment each. -/
def cfDB : DB :=
  { enrollments := [{ student_id := "stu", course_id := "A" },
                    { student_id := "stu", course_id := "B" }],
    courses := [("A", { title := some "CA" }), ("B", { title := some "CB" })],
    assignments := [("ka", recA), ("kb", recB)],
    submissions := [] }

/-- The Course Store `get` throws for course `A` only. -/
def cFaults : Faults := { noFaults with courseFail := fun cid => cid == "A" }

/-- The assignments fetch throws for the loop iteration of course `A` only. -/
def aFaults : Faults := { noFaults with assignFail := fun cid => cid == "A" }

/-- The enrollment query throws. -/
def eFaults : Faults := { noFaults with enrollFail := true }

/-- An assignment record carrying its own `id` field, stored under a
different database key. -/
def idRec : AssignmentRec :=
  { id := some "self", course_id := "c1", title := "T2", description := none,
    assignmentType := none, textContent := none }

/-- `exDB` with the `id`-carrying record stored under key `"key1"`. -/
def idDB : DB := { exDB with assignments := [("key1", idRec)] }

/-- The view `fetchStudentAssignments idDB noFaults "stu"` returns. -/
def idView : AssignmentView :=
  { id := "self", course_id := "c1", title := "T2", description := none,
    assignmentType := "text", textContent := none, course_name := "Course 1",
    submitted := false, submission := none }

/-! ### Claim theorems -/

/-- C1: for every AssignmentView `v` returned by
`fetchStudentAssignments studentId`, `v.submitted` is true iff at least one
Submission record exists in the Submission Store whose `assignment_id`
equals `v.id` and whose `user_id` equals the queried student. -/
theorem submitted_iff_submission_exists (db : DB) (f : Faults) (u : String)
    (v : AssignmentView) (hv : v ∈ (fetchStudentAssignments db f u).views) :
    v.submitted = true ↔
      ∃ p ∈ db.submissions, p.2.assignment_id = v.id ∧ p.2.user_id = u := by
  obtain ⟨p, hp, cname, rfl⟩ := mem_views db f u v hv
  simp only [mkView, decorate]
  rw [List.find?_isSome]
  simp only [beq_iff_eq]
  exact exists_submission_iff db u _

theorem submitted_iff_submission_exists_witness :
    subView.submitted = true ↔
      ∃ p ∈ subDB.submissions, p.2.assignment_id = subView.id ∧ p.2.user_id = "stu" :=
  submitted_iff_submission_exists subDB noFaults "stu" subView (by decide)

/-- C10: for every returned AssignmentView, `submitted` is true iff the
`submission` field is non-null, and the `submission` field is the first
matching submission in submission-store iteration order (the `find?` over
the student's submissions in store order, keyed on the view's id). -/
theorem submission_field_agrees (db : DB) (f : Faults) (u : String)
    (v : AssignmentView) (hv : v ∈ (fetchStudentAssignments db f u).views) :
    (v.submitted = true ↔ v.submission.isSome = true) ∧
      v.submission = (buildSubmissions db u).find? (fun s => s.assignment_id == v.id) := by
  obtain ⟨p, hp, cname, rfl⟩ := mem_views db f u v hv
  simp [mkView, decorate]

theorem submission_field_agrees_witness :
    (subView.submitted = true ↔ subView.submission.isSome = true) ∧
      subView.submission =
        (buildSubmissions subDB "stu").find? (fun s => s.assignment_id == subView.id) :=
  submission_field_agrees subDB noFaults "stu" subView (by decide)

/-- C9: every returned view's `id` is the record's own `id` field when the
stored record carries one, and the database key only otherwise; the
submission join matches against that resolved id. -/
theorem view_id_prefers_record_id (db : DB) (f : Faults) (u : String)
    (v : AssignmentView) (hv : v ∈ (fetchStudentAssignments db f u).views) :
    ∃ p ∈ db.assignments, v.id = p.2.id.getD p.1 ∧
      v.submission =
        (buildSubmissions db u).find? (fun s => s.assignment_id == p.2.id.getD p.1) := by
  obtain ⟨p, hp, cname, rfl⟩ := mem_views db f u v hv
  exact ⟨p, hp, by simp [mkView, decorate], by simp [mkView, decorate]⟩

theorem view_id_prefers_record_id_witness :
    ∃ p ∈ idDB.assignments, idView.id = p.2.id.getD p.1 ∧
      idView.submission =
        (buildSubmissions idDB "stu").find? (fun s => s.assignment_id == p.2.id.getD p.1) :=
  view_id_prefers_record_id idDB noFaults "stu" idView (by decide)

/-- C2 counterexample: a record with an explicit `textContent` (`some "t"`)
and a truthy `description` (`some "d"`) yields a view whose `textContent`
is the description, not the record's own `textContent`. -/
theorem textContent_claim_false :
    exDB.assignments.map (fun p => p.2.textContent) = [some "t"] ∧
      (fetchStudentAssignments exDB noFaults "stu").views.map (fun v => v.textContent)
        = [some "d"] := by
  decide

/-- C2 (amended): the join step computes `textContent` as
`description || textContent` — the record's truthy `description` takes
precedence, and the record's own `textContent` is used only when the
description is absent or empty. -/
theorem textContent_prefers_description (db : DB) (f : Faults) (u : String)
    (v : AssignmentView) (hv : v ∈ (fetchStudentAssignments db f u).views) :
    ∃ p ∈ db.assignments, v.description = p.2.description ∧
      v.textContent =
        (if truthy p.2.description then p.2.description else p.2.textContent) := by
  obtain ⟨p, hp, cname, rfl⟩ := mem_views db f u v hv
  exact ⟨p, hp, by simp [mkView, decorate], by simp [mkView, decorate]⟩

theorem textContent_prefers_description_witness :
    ∃ p ∈ exDB.assignments, exView.description = p.2.description ∧
      exView.textContent =
        (if truthy p.2.description then p.2.description else p.2.textContent) :=
  textContent_prefers_description exDB noFaults "stu" exView (by decide)

/-- C7: a falsy (empty) student id returns the empty list immediately; the
result does not depend on the store state or on any store fault, so no
store is contacted. -/
theorem empty_studentId_returns_empty (db : DB) (f : Faults) :
    fetchStudentAssignments db f "" = { views := [], toasts := [] } := by
  simp [fetchStudentAssignments]

/-- C8: the aggregation is deterministic over the store state — two calls
against the same store state, fault behavior and student id produce equal
results (same elements, same derived fields, same order). -/
theorem fetch_deterministic (db1 db2 : DB) (f1 f2 : Faults) (u1 u2 : String)
    (hdb : db1 = db2) (hf : f1 = f2) (hu : u1 = u2) :
    fetchStudentAssignments db1 f1 u1 = fetchStudentAssignments db2 f2 u2 := by
  rw [hdb, hf, hu]

theorem fetch_deterministic_witness :
    fetchStudentAssignments subDB noFaults "stu" = fetchStudentAssignments subDB noFaults "stu" :=
  fetch_deterministic subDB subDB noFaults noFaults "stu" "stu" rfl rfl rfl

theorem length_course_filterMap (l : List (String × AssignmentRec))
    (m : List (String × Option String)) (cid : String) :
    (l.filterMap (fun p =>
        if p.2.course_id = cid then some (decorate p.1 p.2 (courseNameOf m cid)) else none)).length
      = (l.filter (fun p => p.2.course_id == cid)).length := by
  induction l with
  | nil => rfl
  | cons x xs ih =>
    by_cases h : x.2.course_id = cid
    · simp [List.filterMap_cons, List.filter_cons, h, ih]
    · simp [List.filterMap_cons, List.filter_cons, h, ih]

theorem collectAssignments_length (db : DB) (f : Faults)
    (m : List (String × Option String)) (h4 : ∀ cid, f.assignFail cid = false)
    (cids : List String) (acc : List AssignmentRow) :
    (collectAssignments db f m cids acc).length =
      acc.length + (cids.map (fun cid =>
        (db.assignments.filter (fun p => p.2.course_id == cid)).length)).sum := by
  induction cids generalizing acc with
  | nil => simp [collectAssignments]
  | cons cid rest ih =>
    rw [collectAssignments, if_neg (by simp [h4 cid]), ih]
    simp [List.length_append, length_course_filterMap]
    omega

/-- C3 counterexample: a student enrolled twice in the same course gets
that course's single stored assignment twice in the returned list — the
course ids are not deduplicated. -/
theorem duplicate_enrollments_duplicate_views :
    dupDB.assignments.length = 1 ∧
      (fetchStudentAssignments dupDB noFaults "stu").views.map (fun v => v.id)
        = ["k1", "k1"] := by
  decide

/-- C3 (amended): the course ids are collected with duplicates retained —
when no store call fails, the result has one view per (enrollment
occurrence, matching assignment) pair, so a course id repeated across a
student's enrollment records contributes its assignments once per
occurrence. -/
theorem views_length_counts_duplicates (db : DB) (f : Faults) (u : String)
    (hu : u ≠ "") (h1 : f.enrollFail = false) (h2 : f.submitFail = false)
    (h3 : ∀ cid, f.courseFail cid = false) (h4 : ∀ cid, f.assignFail cid = false) :
    (fetchStudentAssignments db f u).views.length =
      ((collectCourseIds db u).map (fun cid =>
        (db.assignments.filter (fun p => p.2.course_id == cid)).length)).sum := by
  by_cases he : (db.enrollments.filter (fun e => e.student_id == u)).isEmpty = true
  · have hc : collectCourseIds db u = [] := by
      rw [collectCourseIds, List.isEmpty_iff.mp he]; rfl
    simp [fetchStudentAssignments, fetchBody, hu, h1, he, hc]
  · have hlen := collectCourseIds_ne_nil db u (by rwa [Bool.not_eq_true] at he)
    obtain ⟨m, hm⟩ := buildCoursesMap_ok db f (collectCourseIds db u) [] (fun c _ => h3 c)
    have hviews : (fetchStudentAssignments db f u).views =
        (collectAssignments db f m (collectCourseIds db u) []).map
          (mkView (buildSubmissions db u)) := by
      simp [fetchStudentAssignments, fetchBody, hu, h1, he, hlen, hm, h2]
    rw [hviews, List.length_map, collectAssignments_length db f m h4 _ []]
    simp

theorem views_length_counts_duplicates_witness :
    (fetchStudentAssignments dupDB noFaults "stu").views.length =
      ((collectCourseIds dupDB "stu").map (fun cid =>
        (dupDB.assignments.filter (fun p => p.2.course_id == cid)).length)).sum :=
  views_length_counts_duplicates dupDB noFaults "stu" (by decide) rfl rfl
    (fun _ => rfl) (fun _ => rfl)

/-- C4 counterexample: with the Course Store throwing for enrolled course
`A` only, the whole aggregation aborts — the result is the empty list plus
the error toast — even though without the fault both courses' assignments
are returned with their correct names.  The course-title loop has no
per-course catch. -/
theorem courseFail_counterexample :
    fetchStudentAssignments cfDB cFaults "stu" = { views := [], toasts := [fetchErrorMsg] } ∧
      (fetchStudentAssignments cfDB noFaults "stu").views.map
          (fun v => (v.course_id, v.course_name))
        = [("A", "CA"), ("B", "CB")] := by
  decide

/-- C4 (amended): if the Course Store `get` throws for any enrolled course,
the error escapes the (catch-free) course-title loop to the outermost
handler: the function emits the generic notification and returns the empty
list, dropping every course's assignments.  The `"Unknown Course"` fallback
applies only to a lookup miss that returns normally. -/
theorem courseFail_aborts_aggregation (db : DB) (f : Faults) (u : String)
    (hu : u ≠ "")
    (h : ∃ cid ∈ collectCourseIds db u, f.courseFail cid = true) :
    fetchStudentAssignments db f u = { views := [], toasts := [fetchErrorMsg] } := by
  have hb : fetchBody db f u = .error () := by
    rw [fetchBody]
    by_cases h1 : f.enrollFail
    · rw [if_pos h1]
    · have hne : ¬((db.enrollments.filter (fun e => e.student_id == u)).isEmpty = true) := by
        intro hemp
        obtain ⟨c, hc, _⟩ := h
        rw [collectCourseIds, List.isEmpty_iff.mp hemp] at hc
        cases hc
      have hlen : ¬((collectCourseIds db u).length = 0) := by
        intro h0
        obtain ⟨c, hc, _⟩ := h
        rw [List.length_eq_zero] at h0
        rw [h0] at hc
        cases hc
      rw [if_neg h1, if_neg hne, if_neg hlen, buildCoursesMap_error db f _ [] h]
  rw [fetchStudentAssignments, if_neg hu, hb]

theorem courseFail_aborts_aggregation_witness :
    fetchStudentAssignments cfDB cFaults "stu" = { views := [], toasts := [fetchErrorMsg] } :=
  courseFail_aborts_aggregation cfDB cFaults "stu" (by decide) ⟨"A", by decide, by decide⟩

/-- C5: the function never surfaces an error to the caller — every result
is a plain list; the only notification ever emitted is the generic message,
and it comes with the empty list; in particular a throwing enrollment
query, or a throwing submission query on a non-empty enrollment set, is
caught and flattened to the empty list plus the notification. -/
theorem fail_soft (db : DB) (f : Faults) (u : String) :
    ((fetchStudentAssignments db f u).toasts = [] ∨
      fetchStudentAssignments db f u = { views := [], toasts := [fetchErrorMsg] }) ∧
    (u ≠ "" → f.enrollFail = true →
      fetchStudentAssignments db f u = { views := [], toasts := [fetchErrorMsg] }) ∧
    (u ≠ "" → f.submitFail = true →
      (db.enrollments.filter (fun e => e.student_id == u)).isEmpty = false →
      fetchStudentAssignments db f u = { views := [], toasts := [fetchErrorMsg] }) := by
  refine ⟨?_, ?_, ?_⟩
  · by_cases hu : u = ""
    · left
      simp [fetchStudentAssignments, hu]
    · rcases hb : fetchBody db f u with e | vs
      · right
        simp [fetchStudentAssignments, hu, hb]
      · left
        simp [fetchStudentAssignments, hu, hb]
  · intro hu h1
    have hb : fetchBody db f u = .error () := by rw [fetchBody, if_pos h1]
    simp [fetchStudentAssignments, hu, hb]
  · intro hu h2 hne
    have hb : fetchBody db f u = .error () := by
      rw [fetchBody]
      by_cases h1 : f.enrollFail
      · rw [if_pos h1]
      · rw [if_neg h1, if_neg (by simp [hne])]
        by_cases hlen : (collectCourseIds db u).length = 0
        · exact absurd hlen (collectCourseIds_ne_nil db u hne)
        · rw [if_neg hlen]
          rcases hm : buildCoursesMap db f (collectCourseIds db u) [] with e | m
          · rfl
          · simp [h2]
    simp [fetchStudentAssignments, hu, hb]

theorem fail_soft_witness :
    fetchStudentAssignments exDB eFaults "stu" = { views := [], toasts := [fetchErrorMsg] } :=
  (fail_soft exDB eFaults "stu").2.1 (by decide) rfl

/-- C6: a throwing assignments fetch for one enrolled course is caught
inside the per-course loop; every assignment of every other enrolled course
whose iteration does not throw still appears in the returned list. -/
theorem assignFail_spares_other_courses (db : DB) (f : Faults) (u : String)
    (hu : u ≠ "") (h1 : f.enrollFail = false) (h2 : f.submitFail = false)
    (h3 : ∀ cid, f.courseFail cid = false)
    (cid : String) (hc : cid ∈ collectCourseIds db u) (hok : f.assignFail cid = false)
    (p : String × AssignmentRec) (hp : p ∈ db.assignments) (hcid : p.2.course_id = cid) :
    ∃ v ∈ (fetchStudentAssignments db f u).views,
      v.id = p.2.id.getD p.1 ∧ v.course_id = cid ∧ v.title = p.2.title := by
  have hne : ¬((db.enrollments.filter (fun e => e.student_id == u)).isEmpty = true) := by
    intro hemp
    rw [collectCourseIds, List.isEmpty_iff.mp hemp] at hc
    cases hc
  have hlen : ¬((collectCourseIds db u).length = 0) := by
    intro h0
    rw [List.length_eq_zero] at h0
    rw [h0] at hc
    cases hc
  obtain ⟨m, hm⟩ := buildCoursesMap_ok db f (collectCourseIds db u) [] (fun c _ => h3 c)
  have hviews : (fetchStudentAssignments db f u).views =
      (collectAssignments db f m (collectCourseIds db u) []).map
        (mkView (buildSubmissions db u)) := by
    simp [fetchStudentAssignments, fetchBody, hu, h1, hne, hlen, hm, h2]
  rw [hviews]
  refine ⟨mkView (buildSubmissions db u) (decorate p.1 p.2 (courseNameOf m cid)),
    List.mem_map_of_mem _ ?_, ?_, ?_, ?_⟩
  · exact (mem_collectAssignments db f m _ [] _).mpr
      (Or.inr ⟨cid, hc, hok, p, hp, hcid, rfl⟩)
  · simp [mkView, decorate]
  · simp [mkView, decorate, hcid]
  · simp [mkView, decorate]

theorem assignFail_spares_other_courses_witness :
    ∃ v ∈ (fetchStudentAssignments cfDB aFaults "stu").views,
      v.id = "kb" ∧ v.course_id = "B" ∧ v.title = "b1" :=
  assignFail_spares_other_courses cfDB aFaults "stu" (by decide) rfl rfl (fun _ => rfl)
    "B" (by decide) (by decide) ("kb", recB) (by decide) rfl

end StudyEngage
